import Mathlib

/-!
# Verification of the root-finding library (`src/roots/roots.cpp`)

This file gives a shallow embedding of the four root-finding routines of the
repository — `bisection`, `regula_falsi`, `newton_raphson` and `secant` — and
proves properties of the embedding.

Modelling choices:

* C++ `double` values are modelled as exact rationals `ℚ`; `std::fabs` is `|·|`.
  Floating-point rounding is outside the model.
* Each routine returns `bool` and writes through an out-parameter `double *root`.
  The embedding returns a `RootResult` with one constructor per `return`
  statement of the source, so that the distinct exit paths (which the C++
  collapses to `true`/`false`) stay observable.  Constructors that carry a
  rational are the exits that store a value through `*root`.
* The possibility that the caller passes a null `root` pointer is modelled by a
  boolean argument `nullRoot`; a write through a null pointer (undefined
  behaviour in C++) is modelled by the constructor `RootResult.nullDeref`.
* The `for (int i = 0; i < MAX_ITERATIONS; i++)` loops are modelled by fuel
  recursion: `*Loop f … fuel s` runs the loop body at most `fuel` more times,
  starting from loop state `s`; the `fuel = 0` case is whatever the source does
  after the loop ends.  The body of each loop is factored into a non-recursive
  `*Step` function returning either a result (`Sum.inl`, the body executed a
  `return`) or the next loop state (`Sum.inr`).
-/

/-- `const double TOLERANCE = 1e-6;` (roots.cpp line 5). -/
def TOLERANCE : ℚ := 1 / 1000000

/-- `const int MAX_ITERATIONS = 1000000;` (roots.cpp line 6). -/
def MAX_ITERATIONS : ℕ := 1000000

/-- The literal `1e-12` guarding the stall / zero-derivative checks
(roots.cpp lines 71, 117, 154). -/
def EPS12 : ℚ := 1 / 1000000000000

/-- One constructor per `return` site of the C++ routines.
`root x` is `*root = x; return true`.  `nullOutput` is bisection's
`if(!root) return false;`.  `noSignChange`, `stall`, `zeroDerivative`,
`outOfBounds` and `maxIterations` are the various `return false;` sites
(which the C++ cannot tell apart in its return value; the spec names them
by their reason).  `maxIterationsEstimate x` is secant's final
`*root = x_curr; return false;` — a failure that still writes the output.
`nullDeref` marks a write through a null `root` pointer (C++ UB). -/
inductive RootResult where
  | root (x : ℚ)
  | nullOutput
  | noSignChange
  | stall
  | zeroDerivative
  | outOfBounds
  | maxIterations
  | maxIterationsEstimate (x : ℚ)
  | nullDeref
deriving DecidableEq, Repr

/-- `*root = x; return true;` under a possibly-null pointer. -/
def writeRoot (nr : Bool) (x : ℚ) : RootResult :=
  if nr then .nullDeref else .root x

/-- `*root = x; return false;` (secant's post-loop exit) under a possibly-null
pointer. -/
def writeRootFail (nr : Bool) (x : ℚ) : RootResult :=
  if nr then .nullDeref else .maxIterationsEstimate x

/-- Loop state of the bracketing methods: the endpoints `a`, `b` and the cached
values `fa = f(a)`, `fb = f(b)` (roots.cpp lines 17-18, 41-48, 62-63, 86-95). -/
structure BracketState where
  a : ℚ
  b : ℚ
  fa : ℚ
  fb : ℚ
deriving DecidableEq, Repr

/-- Trailing-point state of the secant method: `x_prev` and `x_curr`
(roots.cpp lines 146-147, 172-173). -/
structure SecPair where
  xp : ℚ
  xc : ℚ
deriving DecidableEq, Repr

/-- One iteration of bisection's loop body (roots.cpp lines 30-48):
midpoint `c = 0.5*(a+b)`, evaluate `fc = f(c)`, return `c` if
`|fc| < TOLERANCE || |b-a| < TOLERANCE`, otherwise replace the endpoint
whose `f`-value shares `fc`'s side (`fa*fc < 0` keeps `[a,c]`). -/
def bisectionStep (f : ℚ → ℚ) (nr : Bool) (s : BracketState) : RootResult ⊕ BracketState :=
  let c := (s.a + s.b) / 2
  let fc := f c
  if |fc| < TOLERANCE ∨ |s.b - s.a| < TOLERANCE then .inl (writeRoot nr c)
  else if s.fa * fc < 0 then .inr ⟨s.a, c, s.fa, fc⟩
  else .inr ⟨c, s.b, fc, s.fb⟩

/-- The bisection loop (roots.cpp lines 28-49); fuel 0 is the post-loop
`*root = 0.5 * (a + b); return true;` (lines 51-52). -/
def bisectionLoop (f : ℚ → ℚ) (nr : Bool) : ℕ → BracketState → RootResult
  | 0, s => writeRoot nr ((s.a + s.b) / 2)
  | fuel + 1, s =>
    match bisectionStep f nr s with
    | .inl r => r
    | .inr s' => bisectionLoop f nr fuel s'

/-- `bool bisection(f, a, b, root)` (roots.cpp lines 12-53): null-pointer guard,
exact-endpoint-root early returns, sign-change precondition, then the loop. -/
def bisection (nullRoot : Bool) (f : ℚ → ℚ) (a b : ℚ) : RootResult :=
  if nullRoot then .nullOutput
  else
    let fa := f a
    let fb := f b
    if fa = 0 then .root a
    else if fb = 0 then .root b
    else if fa * fb > 0 then .noSignChange
    else bisectionLoop f nullRoot MAX_ITERATIONS ⟨a, b, fa, fb⟩

/-- The part of regula falsi's loop body after the candidate `c` is fixed
(roots.cpp lines 79-95): evaluate `fc = f(c)`, return `c` on
`|fc| < TOLERANCE || |b-a| < TOLERANCE`, otherwise the bracket update
(`fc*fa < 0` keeps `[a,c]`). -/
def regulaStepAt (f : ℚ → ℚ) (nr : Bool) (s : BracketState) (c : ℚ) : RootResult ⊕ BracketState :=
  let fc := f c
  if |fc| < TOLERANCE ∨ |s.b - s.a| < TOLERANCE then .inl (writeRoot nr c)
  else if fc * s.fa < 0 then .inr ⟨s.a, c, s.fa, fc⟩
  else .inr ⟨c, s.b, fc, s.fb⟩

/-- One iteration of regula falsi's loop body (roots.cpp lines 71-95):
stall guard `|fb - fa| < 1e-12`, the interpolated point
`c = a - fa*(b-a)/(fb-fa)`, and the fallback to the midpoint when `c`
is not strictly inside `(a, b)` (`c <= a || c >= b`, lines 75-77). -/
def regulaStep (f : ℚ → ℚ) (nr : Bool) (s : BracketState) : RootResult ⊕ BracketState :=
  if |s.fb - s.fa| < EPS12 then .inl .stall
  else
    let c := s.a - s.fa * (s.b - s.a) / (s.fb - s.fa)
    regulaStepAt f nr s (if c ≤ s.a ∨ c ≥ s.b then (s.a + s.b) / 2 else c)

/-- The regula falsi loop (roots.cpp lines 69-96); fuel 0 is the post-loop
`return false;` (line 98), which does not write `*root`. -/
def regulaFalsiLoop (f : ℚ → ℚ) (nr : Bool) : ℕ → BracketState → RootResult
  | 0, _ => .maxIterations
  | fuel + 1, s =>
    match regulaStep f nr s with
    | .inl r => r
    | .inr s' => regulaFalsiLoop f nr fuel s'

/-- `bool regula_falsi(f, a, b, root)` (roots.cpp lines 59-99): sign-change
precondition (line 65), then the loop. -/
def regula_falsi (nullRoot : Bool) (f : ℚ → ℚ) (a b : ℚ) : RootResult :=
  let fa := f a
  let fb := f b
  if fa * fb > 0 then .noSignChange
  else regulaFalsiLoop f nullRoot MAX_ITERATIONS ⟨a, b, fa, fb⟩

/-- One iteration of Newton-Raphson's loop body (roots.cpp lines 114-129), in
source order: zero-derivative guard `|g(c)| < 1e-12`, tangent step
`c_next = c - f(c)/g(c)`, out-of-bounds check `c_next < a || c_next > b`,
convergence check `|c_next - c| < TOLERANCE`. -/
def newtonStep (f g : ℚ → ℚ) (nr : Bool) (a b : ℚ) (c : ℚ) : RootResult ⊕ ℚ :=
  let fc := f c
  let gc := g c
  if |gc| < EPS12 then .inl .zeroDerivative
  else
    let cn := c - fc / gc
    if cn < a ∨ cn > b then .inl .outOfBounds
    else if |cn - c| < TOLERANCE then .inl (writeRoot nr cn)
    else .inr cn

/-- The Newton-Raphson loop (roots.cpp lines 112-130); fuel 0 is the post-loop
`return false;` (line 132), which does not write `*root`. -/
def newtonLoop (f g : ℚ → ℚ) (nr : Bool) (a b : ℚ) : ℕ → ℚ → RootResult
  | 0, _ => .maxIterations
  | fuel + 1, c =>
    match newtonStep f g nr a b c with
    | .inl r => r
    | .inr c' => newtonLoop f g nr a b fuel c'

/-- `bool newton_raphson(f, g, a, b, c, root)` (roots.cpp lines 110-133). -/
def newton_raphson (nullRoot : Bool) (f g : ℚ → ℚ) (a b c : ℚ) : RootResult :=
  newtonLoop f g nullRoot a b MAX_ITERATIONS c

/-- The part of secant's loop body after the new point `x_new` is fixed
(roots.cpp lines 163-173): evaluate `f_new = f(x_new)`, return `x_new` on
`|x_new - x_curr| < TOLERANCE || |f_new| < TOLERANCE`, otherwise shift the
trailing pair. -/
def secantStepAt (f : ℚ → ℚ) (nr : Bool) (s : SecPair) (xn : ℚ) : RootResult ⊕ SecPair :=
  let fn := f xn
  if |xn - s.xc| < TOLERANCE ∨ |fn| < TOLERANCE then .inl (writeRoot nr xn)
  else .inr ⟨s.xc, xn⟩

/-- One iteration of secant's loop body (roots.cpp lines 151-173): evaluate
`f` at both trailing points, stall guard `|f_curr - f_prev| < 1e-12`, the
secant update `x_new = x_curr - f_curr*(x_curr - x_prev)/(f_curr - f_prev)`,
and the fallback to the midpoint when `x_new < a || x_new > b`
(lines 159-161). -/
def secantStep (f : ℚ → ℚ) (nr : Bool) (a b : ℚ) (s : SecPair) : RootResult ⊕ SecPair :=
  let fp := f s.xp
  let fc := f s.xc
  if |fc - fp| < EPS12 then .inl .stall
  else
    let xn := s.xc - fc * (s.xc - s.xp) / (fc - fp)
    secantStepAt f nr s (if xn < a ∨ xn > b then (a + b) / 2 else xn)

/-- The secant loop (roots.cpp lines 149-174); fuel 0 is the post-loop
`*root = x_curr; return false;` (lines 175-176). -/
def secantLoop (f : ℚ → ℚ) (nr : Bool) (a b : ℚ) : ℕ → SecPair → RootResult
  | 0, s => writeRootFail nr s.xc
  | fuel + 1, s =>
    match secantStep f nr a b s with
    | .inl r => r
    | .inr s' => secantLoop f nr a b fuel s'

/-- `bool secant(f, a, b, c, root)` (roots.cpp lines 144-177): the trailing
pair is seeded as `x_prev = a`, `x_curr = c` (lines 146-147). -/
def secant (nullRoot : Bool) (f : ℚ → ℚ) (a b c : ℚ) : RootResult :=
  secantLoop f nullRoot a b MAX_ITERATIONS ⟨a, c⟩

/-- The state reached after `n` loop iterations, if the loop body has not
returned before that: iterated application of a loop-body step function.
Used to speak about "iteration boundaries" of the loops. -/
def iterSteps {R S : Type} (step : S → R ⊕ S) : ℕ → S → R ⊕ S
  | 0, s => .inr s
  | n + 1, s =>
    match step s with
    | .inl r => .inl r
    | .inr s' => iterSteps step n s'

theorem bisectionLoop_succ (f : ℚ → ℚ) (nr : Bool) (fuel : ℕ) (s : BracketState) :
    bisectionLoop f nr (fuel + 1) s =
      match bisectionStep f nr s with
      | .inl r => r
      | .inr s' => bisectionLoop f nr fuel s' := rfl

theorem regulaFalsiLoop_succ (f : ℚ → ℚ) (nr : Bool) (fuel : ℕ) (s : BracketState) :
    regulaFalsiLoop f nr (fuel + 1) s =
      match regulaStep f nr s with
      | .inl r => r
      | .inr s' => regulaFalsiLoop f nr fuel s' := rfl

theorem newtonLoop_succ (f g : ℚ → ℚ) (nr : Bool) (a b : ℚ) (fuel : ℕ) (c : ℚ) :
    newtonLoop f g nr a b (fuel + 1) c =
      match newtonStep f g nr a b c with
      | .inl r => r
      | .inr c' => newtonLoop f g nr a b fuel c' := rfl

theorem secantLoop_succ (f : ℚ → ℚ) (nr : Bool) (a b : ℚ) (fuel : ℕ) (s : SecPair) :
    secantLoop f nr a b (fuel + 1) s =
      match secantStep f nr a b s with
      | .inl r => r
      | .inr s' => secantLoop f nr a b fuel s' := rfl

theorem bisectionLoop_done (f : ℚ → ℚ) (nr : Bool) (fuel : ℕ) (s : BracketState)
    (r : RootResult) (h : bisectionStep f nr s = .inl r) :
    bisectionLoop f nr (fuel + 1) s = r := by
  rw [bisectionLoop_succ, h]

theorem bisectionLoop_cont (f : ℚ → ℚ) (nr : Bool) (fuel : ℕ) (s s' : BracketState)
    (h : bisectionStep f nr s = .inr s') :
    bisectionLoop f nr (fuel + 1) s = bisectionLoop f nr fuel s' := by
  rw [bisectionLoop_succ, h]

theorem regulaFalsiLoop_done (f : ℚ → ℚ) (nr : Bool) (fuel : ℕ) (s : BracketState)
    (r : RootResult) (h : regulaStep f nr s = .inl r) :
    regulaFalsiLoop f nr (fuel + 1) s = r := by
  rw [regulaFalsiLoop_succ, h]

theorem regulaFalsiLoop_cont (f : ℚ → ℚ) (nr : Bool) (fuel : ℕ) (s s' : BracketState)
    (h : regulaStep f nr s = .inr s') :
    regulaFalsiLoop f nr (fuel + 1) s = regulaFalsiLoop f nr fuel s' := by
  rw [regulaFalsiLoop_succ, h]

theorem newtonLoop_done (f g : ℚ → ℚ) (nr : Bool) (a b : ℚ) (fuel : ℕ) (c : ℚ)
    (r : RootResult) (h : newtonStep f g nr a b c = .inl r) :
    newtonLoop f g nr a b (fuel + 1) c = r := by
  rw [newtonLoop_succ, h]

theorem secantLoop_done (f : ℚ → ℚ) (nr : Bool) (a b : ℚ) (fuel : ℕ) (s : SecPair)
    (r : RootResult) (h : secantStep f nr a b s = .inl r) :
    secantLoop f nr a b (fuel + 1) s = r := by
  rw [secantLoop_succ, h]

/-- The identity function, a concrete continuous input. -/
def idLine (x : ℚ) : ℚ := x

/-- The constant function 1. -/
def oneFun (_ : ℚ) : ℚ := 1

/-- The constant function 0. -/
def zeroFun (_ : ℚ) : ℚ := 0

/-- The constant function 10. -/
def tenFun (_ : ℚ) : ℚ := 10

/-- `x - 1/2`. -/
def shiftHalf (x : ℚ) : ℚ := x - 1 / 2

/-- `x - 5`. -/
def shiftFive (x : ℚ) : ℚ := x - 5

/-- `x² - 1/2`, a concrete input with an irrational root. -/
def quadHalf (x : ℚ) : ℚ := x * x - 1 / 2

/-- A steep line, `10⁶·(x - 4·10⁻⁷)`: its root is bracketed by
`[0, 9·10⁻⁷]`, an interval already narrower than `TOLERANCE`, while the
residual at the first midpoint is huge. -/
def steepLine (x : ℚ) : ℚ := 1000000 * (x - 4 / 10000000)

/-- An extremely flat line, `x · 10⁻¹³`: it changes sign on `[-1, 1]` but the
difference `f(b) - f(a) = 2·10⁻¹³` is below the `1e-12` stall guard. -/
def flatLine (x : ℚ) : ℚ := x / 10000000000000

/-- Claim C1 exactly as stated (over the embedding): every strict sign-change
bracket makes both bracketing methods return success with a result whose
residual beats `TOLERANCE`.  Refuted below. -/
def C1Stated : Prop :=
  ∀ f : ℚ → ℚ, ∀ a b : ℚ, f a * f b < 0 →
    (∃ r, bisection false f a b = .root r ∧ |f r| < TOLERANCE) ∧
    (∃ r, regula_falsi false f a b = .root r ∧ |f r| < TOLERANCE)

/-- Claim C2 exactly as stated (over the embedding): from any valid initial
bracket (`f(a)·f(b) ≤ 0`, exact endpoint roots allowed), every loop state at an
iteration boundary of bisection (whose loop is only entered when neither
endpoint is an exact root) and of regula falsi keeps `fa·fb ≤ 0`.
Refuted below for regula falsi. -/
def C2Stated : Prop :=
  ∀ f : ℚ → ℚ, ∀ a b : ℚ, ∀ n : ℕ, ∀ s : BracketState,
    f a * f b ≤ 0 →
    ((f a ≠ 0 → f b ≠ 0 →
        iterSteps (bisectionStep f false) n ⟨a, b, f a, f b⟩ = .inr s →
        s.fa * s.fb ≤ 0) ∧
      (iterSteps (regulaStep f false) n ⟨a, b, f a, f b⟩ = .inr s →
        s.fa * s.fb ≤ 0))

/-- C3: with `f(a)` and `f(b)` of the same sign and both nonzero
(`f(a)·f(b) > 0`), both bracketing methods fail through the `NoSignChange`
return site before the loop starts.  The quantification over all `f` with the
given sign configuration shows the outcome depends on nothing but the two
precondition evaluations `f(a)` and `f(b)`: no further point of `f` is ever
consulted. -/
theorem no_sign_change_rejected (f : ℚ → ℚ) (a b : ℚ) (h : f a * f b > 0) :
    bisection false f a b = .noSignChange ∧ regula_falsi false f a b = .noSignChange := by
  have ha : f a ≠ 0 := by intro h0; rw [h0, zero_mul] at h; exact lt_irrefl 0 h
  have hb : f b ≠ 0 := by intro h0; rw [h0, mul_zero] at h; exact lt_irrefl 0 h
  constructor
  · simp [bisection, ha, hb, h]
  · simp [regula_falsi, h]

/-- Witness for `no_sign_change_rejected` at `f ≡ 1` on `[0, 1]`. -/
theorem no_sign_change_rejected_witness :
    oneFun 0 * oneFun 1 > 0 ∧
    (bisection false oneFun 0 1 = .noSignChange ∧
      regula_falsi false oneFun 0 1 = .noSignChange) :=
  ⟨by norm_num [oneFun], no_sign_change_rejected oneFun 0 1 (by norm_num [oneFun])⟩

/-- C4: when the iteration cap runs out (loop fuel 0), bisection still returns
success through `*root = 0.5*(a+b); return true;` — the midpoint of the final
bracket — whereas regula falsi returns failure through `return false;` without
writing `*root` (the `maxIterations` constructor carries no value). -/
theorem cap_exhaustion_policies (f : ℚ → ℚ) (s : BracketState) :
    bisectionLoop f false 0 s = .root ((s.a + s.b) / 2) ∧
    regulaFalsiLoop f false 0 s = .maxIterations :=
  ⟨rfl, rfl⟩

/-- C8: when secant's loop fuel runs out, the final `x_curr` is written through
`*root` even though the call returns `false` (the `maxIterationsEstimate`
constructor, which carries the written value yet is distinct from every
successful `root` result) — so a caller ignoring the return value reads a
plausible-looking unconverged estimate. -/
theorem secant_cap_writes_estimate (f : ℚ → ℚ) (a b : ℚ) (p : SecPair) :
    secantLoop f false a b 0 p = .maxIterationsEstimate p.xc ∧
    ∀ r : ℚ, RootResult.maxIterationsEstimate p.xc ≠ RootResult.root r :=
  ⟨rfl, fun _ h => RootResult.noConfusion h⟩

/-- C9: all four methods are deterministic — equal inputs give equal outputs.
The C++ routines touch only call-local variables and the two `const` globals,
which is what lets them be modelled as pure functions; determinism is then the
congruence law below. -/
theorem methods_deterministic (f g f2 g2 : ℚ → ℚ) (a b c a2 b2 c2 : ℚ)
    (hf : f = f2) (hg : g = g2) (ha : a = a2) (hb : b = b2) (hc : c = c2) :
    bisection false f a b = bisection false f2 a2 b2 ∧
    regula_falsi false f a b = regula_falsi false f2 a2 b2 ∧
    newton_raphson false f g a b c = newton_raphson false f2 g2 a2 b2 c2 ∧
    secant false f a b c = secant false f2 a2 b2 c2 := by
  subst hf; subst hg; subst ha; subst hb; subst hc
  exact ⟨rfl, rfl, rfl, rfl⟩

/-- Witness for `methods_deterministic`: two calls with identical concrete
inputs. -/
theorem methods_deterministic_witness :
    bisection false idLine 0 1 = bisection false idLine 0 1 ∧
    regula_falsi false idLine 0 1 = regula_falsi false idLine 0 1 ∧
    newton_raphson false idLine oneFun 0 1 (1 / 2) =
      newton_raphson false idLine oneFun 0 1 (1 / 2) ∧
    secant false idLine 0 1 (1 / 2) = secant false idLine 0 1 (1 / 2) :=
  methods_deterministic idLine oneFun idLine oneFun 0 1 (1 / 2) 0 1 (1 / 2)
    rfl rfl rfl rfl rfl

/-- C10: calling bisection with a null `root` pointer returns `false` through
the entry guard `if(!root) return false;` for every `f`, `a`, `b` — so `f` is
never evaluated — and bisection is the only one of the four methods with this
guard: on suitable inputs each of the other three reaches a `*root` write with
the null pointer (undefined behaviour, `nullDeref`) instead of returning
early. -/
theorem null_guard_only_bisection (f : ℚ → ℚ) (a b : ℚ) :
    bisection true f a b = .nullOutput ∧
    regula_falsi true idLine (-1) 1 = .nullDeref ∧
    newton_raphson true zeroFun oneFun (-1) 1 0 = .nullDeref ∧
    secant true shiftHalf 0 1 1 = .nullDeref := by
  refine ⟨rfl, ?_, ?_, ?_⟩
  · have hng : ¬ idLine (-1) * idLine 1 > 0 := by norm_num [idLine]
    simp [regula_falsi, hng, MAX_ITERATIONS]
    exact regulaFalsiLoop_done idLine true 999999 _ _
      (by norm_num [regulaStep, regulaStepAt, idLine, EPS12, TOLERANCE, writeRoot, abs_lt])
  · simp only [newton_raphson, MAX_ITERATIONS]
    exact newtonLoop_done zeroFun oneFun true (-1) 1 999999 0 _
      (by norm_num [newtonStep, zeroFun, oneFun, EPS12, TOLERANCE, writeRoot, abs_lt])
  · simp only [secant, MAX_ITERATIONS]
    exact secantLoop_done shiftHalf true 0 1 999999 _ _
      (by norm_num [secantStep, secantStepAt, shiftHalf, EPS12, TOLERANCE, writeRoot, abs_lt])

/-- C5: the checks of each Newton-Raphson iteration happen in source order with
the stated outcomes: the zero-derivative guard `|g(x)| < 1e-12` fires first
(regardless of where the tangent step would land); otherwise, if
`x_next = x - f(x)/g(x)` leaves `[a, b]`, the call fails `OutOfBounds` — even
when `|x_next - x|` is already below `TOLERANCE`, showing the bounds check
precedes the convergence check; otherwise `|x_next - x| < TOLERANCE` succeeds
with `x_next`.  In particular `f(x) = x³`, `g(x) = 3x²`, `x₀ = 0` fails with
`ZeroDerivative` on the first iteration, whatever the bounds. -/
theorem newton_check_order (f g : ℚ → ℚ) (a b c : ℚ) (n : ℕ) :
    (|g c| < EPS12 → newtonLoop f g false a b (n + 1) c = .zeroDerivative) ∧
    (¬ |g c| < EPS12 → (c - f c / g c < a ∨ c - f c / g c > b) →
      newtonLoop f g false a b (n + 1) c = .outOfBounds) ∧
    (¬ |g c| < EPS12 → ¬ (c - f c / g c < a ∨ c - f c / g c > b) →
      |c - f c / g c - c| < TOLERANCE →
      newtonLoop f g false a b (n + 1) c = .root (c - f c / g c)) ∧
    (∀ a2 b2 : ℚ,
      newton_raphson false (fun x => x ^ 3) (fun x => 3 * x ^ 2) a2 b2 0 =
        .zeroDerivative) := by
  refine ⟨?_, ?_, ?_, ?_⟩
  · intro h1
    exact newtonLoop_done f g false a b n c _ (by simp only [newtonStep, if_pos h1])
  · intro h1 h2
    exact newtonLoop_done f g false a b n c _
      (by simp only [newtonStep, if_neg h1, if_pos h2])
  · intro h1 h2 h3
    exact newtonLoop_done f g false a b n c _
      (by simp only [newtonStep, if_neg h1, if_neg h2, if_pos h3, writeRoot,
        Bool.false_eq_true, if_false])
  · intro a2 b2
    simp only [newton_raphson, MAX_ITERATIONS]
    exact newtonLoop_done _ _ false a2 b2 999999 0 _
      (by norm_num [newtonStep, EPS12, abs_lt])

/-- Witness for `newton_check_order`: each branch exercised at concrete
inputs on `[-1, 1]` with one unit of fuel. -/
theorem newton_check_order_witness :
    newtonLoop idLine zeroFun false (-1) 1 1 0 = .zeroDerivative ∧
    newtonLoop tenFun oneFun false (-1) 1 1 0 = .outOfBounds ∧
    newtonLoop zeroFun oneFun false (-1) 1 1 0 = .root (0 - zeroFun 0 / oneFun 0) ∧
    newton_raphson false (fun x => x ^ 3) (fun x => 3 * x ^ 2) (-5) 5 0 =
      .zeroDerivative :=
  ⟨(newton_check_order idLine zeroFun (-1) 1 0 0).1
      (by norm_num [zeroFun, EPS12, abs_lt]),
    (newton_check_order tenFun oneFun (-1) 1 0 0).2.1
      (by norm_num [oneFun, EPS12, abs_lt])
      (by norm_num [tenFun, oneFun]),
    (newton_check_order zeroFun oneFun (-1) 1 0 0).2.2.1
      (by norm_num [oneFun, EPS12, abs_lt])
      (by norm_num [zeroFun, oneFun])
      (by norm_num [zeroFun, oneFun, TOLERANCE, abs_lt]),
    (newton_check_order idLine idLine 0 0 0 0).2.2.2 (-5) 5⟩

/-- C6: whenever an iteration of regula falsi starts with
`|f(b) - f(a)| < 1e-12` (the loop state caching `fa = f(a)`, `fb = f(b)`), the
call fails through the `StallDetected` return site, and likewise secant when
`|f(x_curr) - f(x_prev)| < 1e-12`; the degenerate denominator is never used in
an interpolation step — the guard is the first statement of both loop
bodies. -/
theorem stall_guards_fire (f : ℚ → ℚ) (a b : ℚ) (s : BracketState) (p : SecPair) (n : ℕ) :
    (s.fa = f s.a → s.fb = f s.b → |f s.b - f s.a| < EPS12 →
      regulaFalsiLoop f false (n + 1) s = .stall) ∧
    (|f p.xc - f p.xp| < EPS12 → secantLoop f false a b (n + 1) p = .stall) := by
  constructor
  · intro hfa hfb h
    exact regulaFalsiLoop_done f false n s _ (by rw [regulaStep, hfa, hfb, if_pos h])
  · intro h
    exact secantLoop_done f false a b n p _ (by simp only [secantStep, if_pos h])

/-- Witness for `stall_guards_fire` at the constant function 1 (difference of
function values exactly 0). -/
theorem stall_guards_fire_witness :
    regulaFalsiLoop oneFun false 1 ⟨0, 1, 1, 1⟩ = .stall ∧
    secantLoop oneFun false 0 1 1 ⟨0, 1⟩ = .stall :=
  ⟨(stall_guards_fire oneFun 0 1 ⟨0, 1, 1, 1⟩ ⟨0, 1⟩ 0).1
      (by norm_num [oneFun]) (by norm_num [oneFun])
      (by norm_num [oneFun, EPS12, abs_lt]),
    (stall_guards_fire oneFun 0 1 ⟨0, 1, 1, 1⟩ ⟨0, 1⟩ 0).2
      (by norm_num [oneFun, EPS12, abs_lt])⟩

/-- C7: when the candidate point leaves the admissible region, both
interpolation methods substitute the midpoint for that step instead of
failing: if regula falsi's interpolated `c = a - f(a)·(b-a)/(f(b)-f(a))` is
not strictly inside `(a, b)` (`c <= a || c >= b`), the rest of the iteration
runs with `(a+b)/2`, and if secant's `x_new` leaves `[a, b]`
(`x_new < a || x_new > b`), the rest of the iteration runs with `(a+b)/2`
(converging or shifting the trailing pair from there). -/
theorem midpoint_fallbacks (f : ℚ → ℚ) (a b : ℚ) (s : BracketState) (p : SecPair) :
    (¬ |s.fb - s.fa| < EPS12 →
      (s.a - s.fa * (s.b - s.a) / (s.fb - s.fa) ≤ s.a ∨
        s.a - s.fa * (s.b - s.a) / (s.fb - s.fa) ≥ s.b) →
      regulaStep f false s = regulaStepAt f false s ((s.a + s.b) / 2)) ∧
    (¬ |f p.xc - f p.xp| < EPS12 →
      (p.xc - f p.xc * (p.xc - p.xp) / (f p.xc - f p.xp) < a ∨
        p.xc - f p.xc * (p.xc - p.xp) / (f p.xc - f p.xp) > b) →
      secantStep f false a b p = secantStepAt f false p ((a + b) / 2)) := by
  constructor
  · intro h1 h2
    simp only [regulaStep, if_neg h1, if_pos h2]
  · intro h1 h2
    simp only [secantStep, if_neg h1, if_pos h2]

/-- Witness for `midpoint_fallbacks`: regula falsi from the state
`(a, b, fa, fb) = (0, 1, 0, 1)` (interpolation lands on `a`), secant from
`x_prev = 2, x_curr = 3` with `f(x) = x - 5` on `[0, 1]` (update lands at 5,
outside the bounds). -/
theorem midpoint_fallbacks_witness :
    regulaStep idLine false ⟨0, 1, 0, 1⟩ =
      regulaStepAt idLine false ⟨0, 1, 0, 1⟩ ((0 + 1) / 2) ∧
    secantStep shiftFive false 0 1 ⟨2, 3⟩ =
      secantStepAt shiftFive false ⟨2, 3⟩ ((0 + 1) / 2) :=
  ⟨(midpoint_fallbacks idLine 0 1 ⟨0, 1, 0, 1⟩ ⟨2, 3⟩).1
      (by norm_num [EPS12, abs_lt]) (by norm_num),
    (midpoint_fallbacks shiftFive 0 1 ⟨0, 1, 0, 1⟩ ⟨2, 3⟩).2
      (by norm_num [shiftFive, EPS12, abs_lt]) (by norm_num [shiftFive])⟩

theorem bisectionStep_inl (f : ℚ → ℚ) (s : BracketState) (r : RootResult)
    (h : bisectionStep f false s = .inl r) : ∃ x, r = .root x := by
  simp only [bisectionStep, writeRoot, Bool.false_eq_true, if_false] at h
  split_ifs at h
  all_goals injection h with h2
  all_goals exact ⟨_, h2.symm⟩

theorem bisectionLoop_isRoot (f : ℚ → ℚ) :
    ∀ fuel : ℕ, ∀ s : BracketState, ∃ x, bisectionLoop f false fuel s = .root x := by
  intro fuel
  induction fuel with
  | zero => exact fun s => ⟨(s.a + s.b) / 2, rfl⟩
  | succ n ih =>
    intro s
    rcases hstep : bisectionStep f false s with r | s'
    · obtain ⟨x, rfl⟩ := bisectionStep_inl f s r hstep
      exact ⟨x, bisectionLoop_done f false n s _ hstep⟩
    · obtain ⟨x, hx⟩ := ih s'
      exact ⟨x, (bisectionLoop_cont f false n s s' hstep).trans hx⟩

theorem regulaStep_inl (f : ℚ → ℚ) (s : BracketState) (r : RootResult)
    (h : regulaStep f false s = .inl r) : r = .stall ∨ ∃ x, r = .root x := by
  simp only [regulaStep, regulaStepAt, writeRoot, Bool.false_eq_true, if_false] at h
  split_ifs at h
  all_goals injection h with h2
  all_goals rw [← h2]
  all_goals simp

theorem regulaFalsiLoop_cases (f : ℚ → ℚ) :
    ∀ fuel : ℕ, ∀ s : BracketState,
      regulaFalsiLoop f false fuel s = .stall ∨
      regulaFalsiLoop f false fuel s = .maxIterations ∨
      ∃ x, regulaFalsiLoop f false fuel s = .root x := by
  intro fuel
  induction fuel with
  | zero => exact fun s => Or.inr (Or.inl rfl)
  | succ n ih =>
    intro s
    rcases hstep : regulaStep f false s with r | s'
    · have hdone := regulaFalsiLoop_done f false n s r hstep
      rcases regulaStep_inl f s r hstep with rfl | ⟨x, rfl⟩
      · exact Or.inl hdone
      · exact Or.inr (Or.inr ⟨x, hdone⟩)
    · rw [regulaFalsiLoop_cont f false n s s' hstep]
      exact ih s'

/-- C1 (amended): for every strict sign-change bracket (`f(a)·f(b) < 0`),
bisection returns success within the iteration cap — though the returned point
is only guaranteed to satisfy the loop's own exit tests, not
`|f(x*)| < TOLERANCE` (the `|b-a| < TOLERANCE` width test or the cap can end
the loop first) — while regula falsi either returns success or fails through
its stall guard or the iteration cap. -/
theorem bracket_methods_outcomes (f : ℚ → ℚ) (a b : ℚ) (h : f a * f b < 0) :
    (∃ r, bisection false f a b = .root r) ∧
    (regula_falsi false f a b = .stall ∨
      regula_falsi false f a b = .maxIterations ∨
      ∃ r, regula_falsi false f a b = .root r) := by
  have ha : f a ≠ 0 := by intro h0; rw [h0, zero_mul] at h; exact lt_irrefl 0 h
  have hb : f b ≠ 0 := by intro h0; rw [h0, mul_zero] at h; exact lt_irrefl 0 h
  have hng : ¬ f a * f b > 0 := lt_asymm h
  constructor
  · simp only [bisection, Bool.false_eq_true, if_false, if_neg ha, if_neg hb, if_neg hng]
    exact bisectionLoop_isRoot f MAX_ITERATIONS ⟨a, b, f a, f b⟩
  · simp only [regula_falsi, if_neg hng]
    exact regulaFalsiLoop_cases f MAX_ITERATIONS ⟨a, b, f a, f b⟩

/-- Witness for `bracket_methods_outcomes` at `f = id` on `[-1, 1]`. -/
theorem bracket_methods_outcomes_witness :
    idLine (-1) * idLine 1 < 0 ∧
    ((∃ r, bisection false idLine (-1) 1 = .root r) ∧
      (regula_falsi false idLine (-1) 1 = .stall ∨
        regula_falsi false idLine (-1) 1 = .maxIterations ∨
        ∃ r, regula_falsi false idLine (-1) 1 = .root r)) :=
  ⟨by norm_num [idLine], bracket_methods_outcomes idLine (-1) 1 (by norm_num [idLine])⟩

/-- Counterexample to C1 as stated.  Both guarantees fail on continuous
(indeed linear) inputs: bisection on the steep line over `[0, 9·10⁻⁷]` — a
valid strict bracket — exits through the width test at the very first midpoint
`4.5·10⁻⁷`, where the residual is `1/20`, far above `TOLERANCE`; and regula
falsi on the flat line over `[-1, 1]` — also a valid strict bracket — fails
through the stall guard instead of returning success, because
`|f(b) - f(a)| = 2·10⁻¹³ < 1e-12`. -/
theorem bracket_residual_claim_false :
    ¬ C1Stated ∧
    bisection false steepLine 0 (9 / 10000000) = .root (9 / 20000000) ∧
    ¬ |steepLine (9 / 20000000)| < TOLERANCE ∧
    steepLine 0 * steepLine (9 / 10000000) < 0 ∧
    regula_falsi false flatLine (-1) 1 = .stall ∧
    flatLine (-1) * flatLine 1 < 0 := by
  have hreg : regula_falsi false flatLine (-1) 1 = .stall := by
    have hng : ¬ flatLine (-1) * flatLine 1 > 0 := by norm_num [flatLine]
    simp only [regula_falsi, if_neg hng, MAX_ITERATIONS]
    exact regulaFalsiLoop_done flatLine false 999999 _ _
      (by norm_num [regulaStep, flatLine, EPS12, abs_lt])
  have hbis : bisection false steepLine 0 (9 / 10000000) = .root (9 / 20000000) := by
    have ha : steepLine 0 ≠ 0 := by norm_num [steepLine]
    have hb : steepLine (9 / 10000000) ≠ 0 := by norm_num [steepLine]
    have hng : ¬ steepLine 0 * steepLine (9 / 10000000) > 0 := by norm_num [steepLine]
    simp only [bisection, Bool.false_eq_true, if_false, if_neg ha, if_neg hb, if_neg hng,
      MAX_ITERATIONS]
    exact bisectionLoop_done steepLine false 999999 _ _
      (by norm_num [bisectionStep, steepLine, TOLERANCE, writeRoot, abs_lt])
  refine ⟨?_, hbis, by norm_num [steepLine, TOLERANCE, abs_lt], by norm_num [steepLine],
    hreg, by norm_num [flatLine]⟩
  intro hcl
  obtain ⟨r, hr, -⟩ := (hcl flatLine (-1) 1 (by norm_num [flatLine])).2
  rw [hreg] at hr
  exact RootResult.noConfusion hr

theorem opposite_side_sign {fa fb fc : ℚ} (hab : fa * fb < 0)
    (hnc : ¬ fa * fc < 0) (hfc : fc ≠ 0) : fc * fb < 0 := by
  rcases mul_neg_iff.mp hab with ⟨ha, hb⟩ | ⟨ha, hb⟩
  · have hc : 0 < fc := by
      rcases lt_trichotomy fc 0 with h | h | h
      · exact absurd (mul_neg_of_pos_of_neg ha h) hnc
      · exact absurd h hfc
      · exact h
    exact mul_neg_of_pos_of_neg hc hb
  · have hc : fc < 0 := by
      rcases lt_trichotomy fc 0 with h | h | h
      · exact h
      · exact absurd h hfc
      · exact absurd (mul_neg_of_neg_of_pos ha h) hnc
    exact mul_neg_of_neg_of_pos hc hb

/-- The invariant carried by the bracketing loops: the cached values are the
values of `f` at the endpoints, and they strictly straddle zero. -/
def BracketInv (f : ℚ → ℚ) (s : BracketState) : Prop :=
  s.fa = f s.a ∧ s.fb = f s.b ∧ s.fa * s.fb < 0

theorem nonconverged_value_ne_zero {f : ℚ → ℚ} {c : ℚ} {w : ℚ}
    (h : ¬ (|f c| < TOLERANCE ∨ |w| < TOLERANCE)) : f c ≠ 0 := by
  intro h0
  exact h (Or.inl (by rw [h0]; norm_num [TOLERANCE]))

theorem regulaStepAt_preserves (f : ℚ → ℚ) (s : BracketState) (c : ℚ)
    (s' : BracketState) (hinv : BracketInv f s)
    (h : regulaStepAt f false s c = .inr s') : BracketInv f s' := by
  obtain ⟨hfa, hfb, hprod⟩ := hinv
  simp only [regulaStepAt] at h
  split_ifs at h with h1 h2
  · injection h with h2'
    subst h2'
    exact ⟨hfa, rfl, by rw [mul_comm] at h2; exact h2⟩
  · injection h with h2'
    subst h2'
    refine ⟨rfl, hfb, ?_⟩
    have hfc : f c ≠ 0 := nonconverged_value_ne_zero h1
    exact opposite_side_sign hprod (fun hlt => h2 (by rw [mul_comm] at hlt; exact hlt)) hfc

theorem regulaStep_preserves (f : ℚ → ℚ) (s s' : BracketState)
    (hinv : BracketInv f s) (h : regulaStep f false s = .inr s') :
    BracketInv f s' := by
  simp only [regulaStep] at h
  split_ifs at h with h1
  all_goals exact regulaStepAt_preserves f s _ s' hinv h

theorem bisectionStep_preserves (f : ℚ → ℚ) (s s' : BracketState)
    (hinv : BracketInv f s) (h : bisectionStep f false s = .inr s') :
    BracketInv f s' := by
  obtain ⟨hfa, hfb, hprod⟩ := hinv
  simp only [bisectionStep] at h
  split_ifs at h with h1 h2
  · injection h with h2'
    subst h2'
    exact ⟨hfa, rfl, h2⟩
  · injection h with h2'
    subst h2'
    refine ⟨rfl, hfb, ?_⟩
    exact opposite_side_sign hprod h2 (nonconverged_value_ne_zero h1)

theorem iterSteps_inv {R S : Type} (step : S → R ⊕ S) (P : S → Prop)
    (hstep : ∀ s s', P s → step s = .inr s' → P s') :
    ∀ n : ℕ, ∀ s s' : S, P s → iterSteps step n s = .inr s' → P s' := by
  intro n
  induction n with
  | zero =>
    intro s s' hP h
    simp only [iterSteps, Sum.inr.injEq] at h
    exact h ▸ hP
  | succ m ih =>
    intro s s' hP h
    simp only [iterSteps] at h
    rcases hs : step s with r | s2
    · rw [hs] at h; exact absurd h (by simp)
    · rw [hs] at h
      exact ih s2 s' (hstep s s2 hP hs) h

/-- C2 (amended): the bracket property is an invariant of the loop states of
both bracketing methods from any *strictly* sign-changing initial bracket
(`f(a)·f(b) < 0`): every endpoint-replacement step keeps `f(a)·f(b) ≤ 0`
(in fact `< 0`).  For bisection this covers all valid brackets, since its loop
is only entered once `f(a) ≠ 0` and `f(b) ≠ 0` have been checked; regula falsi
however enters its loop even when an endpoint is an exact root
(`f(a)·f(b) = 0`), and there the invariant can break — see the
counterexample. -/
theorem bracket_invariant_preserved (f : ℚ → ℚ) (a b : ℚ) (n : ℕ) (s : BracketState) :
    (f a * f b ≤ 0 → f a ≠ 0 → f b ≠ 0 →
      iterSteps (bisectionStep f false) n ⟨a, b, f a, f b⟩ = .inr s →
      s.fa * s.fb ≤ 0) ∧
    (f a * f b < 0 →
      iterSteps (regulaStep f false) n ⟨a, b, f a, f b⟩ = .inr s →
      s.fa * s.fb ≤ 0) := by
  constructor
  · intro hle ha hb hiter
    have hlt : f a * f b < 0 := lt_of_le_of_ne hle (mul_ne_zero ha hb)
    have hinv := iterSteps_inv (bisectionStep f false) (BracketInv f)
      (fun s1 s2 hP hs => bisectionStep_preserves f s1 s2 hP hs)
      n ⟨a, b, f a, f b⟩ s ⟨rfl, rfl, hlt⟩ hiter
    exact le_of_lt hinv.2.2
  · intro hlt hiter
    have hinv := iterSteps_inv (regulaStep f false) (BracketInv f)
      (fun s1 s2 hP hs => regulaStep_preserves f s1 s2 hP hs)
      n ⟨a, b, f a, f b⟩ s ⟨rfl, rfl, hlt⟩ hiter
    exact le_of_lt hinv.2.2

/-- Witness for `bracket_invariant_preserved` on `f(x) = x² - 1/2` over
`[0, 1]`: the bisection state after one iteration and the regula falsi state
after two iterations both still bracket the root. -/
theorem bracket_invariant_preserved_witness :
    quadHalf 0 * quadHalf 1 ≤ 0 ∧
    (BracketState.mk (1 / 2) 1 (-(1 / 4)) (1 / 2)).fa *
      (BracketState.mk (1 / 2) 1 (-(1 / 4)) (1 / 2)).fb ≤ 0 ∧
    (BracketState.mk (2 / 3) 1 (-(1 / 18)) (1 / 2)).fa *
      (BracketState.mk (2 / 3) 1 (-(1 / 18)) (1 / 2)).fb ≤ 0 := by
  refine ⟨by norm_num [quadHalf], ?_, ?_⟩
  · exact (bracket_invariant_preserved quadHalf 0 1 1 ⟨1 / 2, 1, -(1 / 4), 1 / 2⟩).1
      (by norm_num [quadHalf]) (by norm_num [quadHalf]) (by norm_num [quadHalf])
      (by norm_num [iterSteps, bisectionStep, quadHalf, TOLERANCE, writeRoot, abs_lt])
  · exact (bracket_invariant_preserved quadHalf 0 1 2 ⟨2 / 3, 1, -(1 / 18), 1 / 2⟩).2
      (by norm_num [quadHalf])
      (by norm_num [iterSteps, regulaStep, regulaStepAt, quadHalf, EPS12, TOLERANCE,
        writeRoot, abs_lt])

/-- Counterexample to C2 as stated.  With `f = id` on `[0, 1]` the initial
bracket is valid in the claimed sense — `f(0)·f(1) = 0 ≤ 0`, the left endpoint
being an exact root — and regula falsi does enter its loop on it (its
precondition only rejects `f(a)·f(b) > 0`); but after one iteration the state
is `(a, b, fa, fb) = (1/2, 1, 1/2, 1)` with `f(a)·f(b) = 1/2 > 0`: the
endpoint-replacement step destroyed the bracket property. -/
theorem bracket_invariant_claim_false :
    ¬ C2Stated ∧
    idLine 0 * idLine 1 ≤ 0 ∧
    iterSteps (regulaStep idLine false) 1 ⟨0, 1, idLine 0, idLine 1⟩ =
      .inr ⟨1 / 2, 1, 1 / 2, 1⟩ ∧
    ¬ ((1 : ℚ) / 2 * 1 ≤ 0) := by
  have heval : iterSteps (regulaStep idLine false) 1 ⟨0, 1, idLine 0, idLine 1⟩ =
      .inr ⟨1 / 2, 1, 1 / 2, 1⟩ := by
    norm_num [iterSteps, regulaStep, regulaStepAt, idLine, EPS12, TOLERANCE,
      writeRoot, abs_lt]
  refine ⟨?_, by norm_num [idLine], heval, by norm_num⟩
  intro hcl
  have h2 := (hcl idLine 0 1 1 ⟨1 / 2, 1, 1 / 2, 1⟩ (by norm_num [idLine])).2 heval
  norm_num at h2
